import Mathlib

/-!
# Verification of `scripts/utils/utils.py` (PluginCatalogue mirror toolkit)

Shallow embedding of the three core functions of `src/scripts/utils/utils.py`:

* `request_get`        — `requests.get` wrapper retrying connection / SSL errors;
* `request_github_api` — conditional-GET client with ETag normalization and
  rate-limit reporting;
* `rewrite_markdown`   — relative-URL rewriting over the parsed Markdown tree.

Network attempts are modelled by an oracle `Nat → AttemptOutcome` giving the
outcome of the i-th `requests.get` call; responses are records carrying the
status code, the headers the code reads, the raw body and the (optional)
result of JSON-parsing the body.  Observable side effects (the rate-limit
sink call, the error log, the act of parsing the body as JSON) are collected
in an event list.  The Markdown document tree is modelled abstractly: the
mistletoe parser/renderer are external dependencies, so the theorems about
`rewrite_markdown` are about the traversal and URL classification the source
file itself implements.
-/

set_option autoImplicit false

namespace PluginCatalogue

/-- A retryable transport error: `requests.exceptions.ConnectionError` or
`ssl.SSLError`, the two exception classes caught by `request_get`.  The `id`
payload distinguishes distinct error values of the same class. -/
inductive RetryableErr where
  | connectionError (id : Nat)
  | sslError (id : Nat)
deriving DecidableEq, Repr

/-- Any other exception escaping `requests.get`; not caught by `request_get`. -/
structure OtherError where
  id : Nat
deriving DecidableEq, Repr

/-- An abstract JSON value, the result of `response.json()` when it succeeds. -/
structure JsonVal where
  val : String
deriving DecidableEq, Repr

/-- An HTTP response as `request_github_api` observes it: the status code, the
four headers the code reads (each possibly absent), the raw body
(`response.content`), and the result of parsing the body as JSON
(`none` when `response.json()` would raise). -/
structure Response where
  status_code : Nat
  etagHeader : Option String
  rateRemainingHeader : Option String
  rateLimitHeader : Option String
  content : String
  jsonBody : Option JsonVal
deriving DecidableEq, Repr

/-- Outcome of one call to `requests.get` inside the retry loop. -/
inductive AttemptOutcome where
  | success (r : Response)
  | retryable (e : RetryableErr)
  | fatal (e : OtherError)
deriving DecidableEq, Repr

/-- Result of a whole `request_get` call.  `returnedNone` is the implicit
`return None` fall-through at the end of the Python function body, reached
only if the loop finishes with `err is None`. -/
inductive ReqOutcome where
  | response (r : Response)
  | raisedRetryable (e : RetryableErr)
  | raisedOther (e : OtherError)
  | returnedNone
deriving DecidableEq, Repr

/-- Default value of the `retries` keyword argument of `request_get` and
`request_github_api`. -/
def defaultRetries : Int := 3

/-- Number of loop iterations of `request_get`: `range(max(1, retries))`. -/
def attemptBudget (retries : Int) : Nat := (max 1 retries).toNat

/-- The retry loop of `request_get`.  `att` is the oracle for the i-th
`requests.get` call, `i` the index of the next attempt, the `Nat` argument
the remaining iteration budget, and the `Option RetryableErr` the `err`
variable.  Returns the outcome together with the number of `requests.get`
calls performed. -/
def requestGetLoop (att : Nat → AttemptOutcome) (i : Nat) :
    Nat → Option RetryableErr → ReqOutcome × Nat
  | 0, err =>
    (match err with
     | some e => ReqOutcome.raisedRetryable e
     | none => ReqOutcome.returnedNone, 0)
  | n + 1, _ =>
    match att i with
    | AttemptOutcome.success r => (ReqOutcome.response r, 1)
    | AttemptOutcome.retryable e =>
      let p := requestGetLoop att (i + 1) n (some e)
      (p.1, p.2 + 1)
    | AttemptOutcome.fatal e => (ReqOutcome.raisedOther e, 1)

/-- `request_get(url, headers=..., params=..., retries=...)`: run the loop
with budget `max(1, retries)` starting from `err = None`.  The url, headers
and params do not influence control flow inside the function, so they are
left to the oracle. -/
def request_get (retries : Int) (att : Nat → AttemptOutcome) : ReqOutcome × Nat :=
  requestGetLoop att 0 (attemptBudget retries) none

/-! ## `request_github_api` -/

/-- Observable side effects of `request_github_api`, in program order:
`recordRateLimit` is the `reporter.record_rate_limit(remaining, limit)` call,
`logError` the `log.error(...)` call on a missing ETag header (with the full
context it formats: url, params, status code, body), `parseJsonBody` the act
of calling `response.json()` on the body.  Debug-flag logging
(`constants.DEBUG.*`) is omitted: it is dead unless external configuration
enables it and carries no data the claims mention. -/
inductive Event where
  | recordRateLimit (remaining limit : String)
  | logError (url params : String) (status : Nat) (content : String)
  | parseJsonBody
deriving DecidableEq, Repr

/-- Outcome of the response-interpretation phase of `request_github_api`. -/
inductive GhOutcome where
  | unchanged (newEtag : String)
  | updated (json : JsonVal) (newEtag : String)
  | errNoEtag
  | errRateLimitKey
  | errStatus (status : Nat) (content : String)
  | errJsonParse
deriving DecidableEq, Repr

/-- Result of a whole `request_github_api` call. -/
inductive GhResult where
  | api (o : GhOutcome)
  | netError (e : RetryableErr)
  | fatalError (e : OtherError)
  | impossibleNone
deriving DecidableEq, Repr

/-- Python's `s.startswith(p)`: `p`'s code points are an initial segment of
`s`'s. -/
def pyStartsWith (s p : String) : Bool :=
  p.data.isPrefixOf s.data

/-- Python's `s[n:]`: drop the first `n` code points. -/
def pyDrop (s : String) (n : Nat) : String :=
  String.mk (s.data.drop n)

/-- The ETag normalization of `request_github_api`:
`if new_etag.startswith('W/'): new_etag = new_etag[2:]`. -/
def normalizeEtag (e : String) : String :=
  if pyStartsWith e "W/" then pyDrop e 2 else e

/-- Headers built by `request_github_api`: always `If-None-Match: etag`, plus
`Authorization: token <t>` when `github_api_token` is in the environment. -/
def buildHeaders (etag : String) (token : Option String) : List (String × String) :=
  (("If-None-Match", etag)) ::
    (match token with
     | some t => [("Authorization", "token " ++ t)]
     | none => [])

/-- The body of `request_github_api` from the point a `Response` is in hand,
following the source line by line:
lookup of the `ETag` header (`KeyError` → `log.error` then re-raise);
lookup of `X-RateLimit-Remaining` then `X-RateLimit-Limit` (`KeyError`
propagates, nothing logged); `reporter.record_rate_limit(remaining, limit)`;
normalization of the new ETag; then the status dispatch
(`304` → `(None, new_etag)`, `!= 200` → raise, else
`(response.json(), new_etag)`). -/
def interpretResponse (url params : String) (r : Response) : GhOutcome × List Event :=
  match r.etagHeader with
  | none => (GhOutcome.errNoEtag, [Event.logError url params r.status_code r.content])
  | some rawEtag =>
    match r.rateRemainingHeader with
    | none => (GhOutcome.errRateLimitKey, [])
    | some remaining =>
      match r.rateLimitHeader with
      | none => (GhOutcome.errRateLimitKey, [])
      | some limit =>
        let ev := [Event.recordRateLimit remaining limit]
        let newEtag := normalizeEtag rawEtag
        if r.status_code = 304 then
          (GhOutcome.unchanged newEtag, ev)
        else if r.status_code ≠ 200 then
          (GhOutcome.errStatus r.status_code r.content, ev)
        else
          match r.jsonBody with
          | some j => (GhOutcome.updated j newEtag, ev ++ [Event.parseJsonBody])
          | none => (GhOutcome.errJsonParse, ev ++ [Event.parseJsonBody])

/-- A completed `request_github_api` call: the headers it sent, its result,
the side effects it emitted and the number of `requests.get` attempts made. -/
structure GhCall where
  sentHeaders : List (String × String)
  result : GhResult
  events : List Event
  attempts : Nat
deriving DecidableEq, Repr

/-- `request_github_api(url, params=..., etag=..., retries=...)`: build the
headers, delegate to `request_get`, and interpret the response when one
arrives.  `token` is the optional `github_api_token` environment variable. -/
def request_github_api (url params etag : String) (token : Option String)
    (retries : Int) (att : Nat → AttemptOutcome) : GhCall :=
  let headers := buildHeaders etag token
  match request_get retries att with
  | (ReqOutcome.response r, k) =>
    let p := interpretResponse url params r
    ⟨headers, GhResult.api p.1, p.2, k⟩
  | (ReqOutcome.raisedRetryable e, k) => ⟨headers, GhResult.netError e, [], k⟩
  | (ReqOutcome.raisedOther e, k) => ⟨headers, GhResult.fatalError e, [], k⟩
  | (ReqOutcome.returnedNone, k) => ⟨headers, GhResult.impossibleNone, [], k⟩

/-! ## `rewrite_markdown` -/

/-- A `\w` character under `re.ASCII`: `[A-Za-z0-9_]`.  (Lean's
`Char.isAlpha` / `Char.isDigit` are ASCII-only, matching `re.ASCII`.) -/
def isWordChar (c : Char) : Bool :=
  c.isAlphanum || c = '_'

/-- After at least one `\w` character has been consumed: the rest of
`\w*://`.  Once a non-word character is met it must be `:` immediately
followed by `//`; backtracking cannot help because `\w` never matches `:`. -/
def matchesSchemeAux : List Char → Bool
  | [] => false
  | c :: rest =>
    if c = ':' then decide (rest.take 2 = ['/', '/'])
    else isWordChar c && matchesSchemeAux rest

/-- `re.match(r'^\w+://', url, re.ASCII)` on the character list of `url`:
a first `\w` character followed by `\w*://`. -/
def matchesSchemeL : List Char → Bool
  | [] => false
  | c :: rest => isWordChar c && matchesSchemeAux rest

/-- Whether `pattern.match(url)` succeeds for
`pattern = re.compile(r'^\w+://', re.ASCII)`. -/
def matchesScheme (s : String) : Bool :=
  matchesSchemeL s.data

/-- Python's `s.rstrip('/')`: drop every trailing `/`. -/
def rstripSlash (s : String) : String :=
  String.mk ((s.data.reverse.dropWhile (fun c => c = '/')).reverse)

/-- The inner `rewrite_url(url, rewrite_base)` of `rewrite_markdown`
(`rewrite_base` is already slash-stripped by the caller): scheme-qualified
URLs and `''`, `'.'`, fragment URLs are kept, anything else becomes
`rewrite_base + '/' + url`. -/
def rewrite_url (url rewriteBase : String) : String :=
  if ¬ matchesScheme url then
    if url = "" ∨ url = "." ∨ pyStartsWith url "#" then url
    else rewriteBase ++ "/" ++ url
  else url

/-- The Markdown document tree as `rewrite_children` sees it: mistletoe
nodes are either `Image` (with a `src`), `Link` (with a `target`) or any
other token; every node has a possibly-empty `children` list. -/
inductive MdNode where
  | image (src : String) (children : List MdNode)
  | link (target : String) (children : List MdNode)
  | other (children : List MdNode)

mutual

/-- `rewrite_children(node)`: rewrite an `Image` source against the raw base
and a `Link` target against the repos base, then recurse into the children.
`reposUrl` and `rawUrl` are the already-slash-stripped bases. -/
def rewriteNode (reposUrl rawUrl : String) : MdNode → MdNode
  | MdNode.image src cs => MdNode.image (rewrite_url src rawUrl) (rewriteNodes reposUrl rawUrl cs)
  | MdNode.link tgt cs => MdNode.link (rewrite_url tgt reposUrl) (rewriteNodes reposUrl rawUrl cs)
  | MdNode.other cs => MdNode.other (rewriteNodes reposUrl rawUrl cs)

/-- `rewrite_children` mapped over a children list. -/
def rewriteNodes (reposUrl rawUrl : String) : List MdNode → List MdNode
  | [] => []
  | n :: ns => rewriteNode reposUrl rawUrl n :: rewriteNodes reposUrl rawUrl ns

end

/-- The tree-level behaviour of `rewrite_markdown(content, repos_url,
raw_url)`: strip trailing slashes from both base URLs, then run
`rewrite_children` over the parsed document.  Parsing and re-serialization
are the external mistletoe library; `doc` stands for the parsed tree. -/
def rewriteDoc (reposUrl rawUrl : String) (doc : MdNode) : MdNode :=
  rewriteNode (rstripSlash reposUrl) (rstripSlash rawUrl) doc

mutual

/-- Apply `fimg` to every image source and `flnk` to every link target of a
tree, leaving everything else in place. -/
def mapUrlsNode (fimg flnk : String → String) : MdNode → MdNode
  | MdNode.image src cs => MdNode.image (fimg src) (mapUrlsNodes fimg flnk cs)
  | MdNode.link tgt cs => MdNode.link (flnk tgt) (mapUrlsNodes fimg flnk cs)
  | MdNode.other cs => MdNode.other (mapUrlsNodes fimg flnk cs)

/-- `mapUrlsNode` mapped over a children list. -/
def mapUrlsNodes (fimg flnk : String → String) : List MdNode → List MdNode
  | [] => []
  | n :: ns => mapUrlsNode fimg flnk n :: mapUrlsNodes fimg flnk ns

end

mutual

/-- All image sources of a tree, in traversal order. -/
def collectImageSrcs : MdNode → List String
  | MdNode.image src cs => src :: collectImageSrcsList cs
  | MdNode.link _ cs => collectImageSrcsList cs
  | MdNode.other cs => collectImageSrcsList cs

/-- `collectImageSrcs` over a children list. -/
def collectImageSrcsList : List MdNode → List String
  | [] => []
  | n :: ns => collectImageSrcs n ++ collectImageSrcsList ns

end

mutual

/-- All link targets of a tree, in traversal order. -/
def collectLinkTargets : MdNode → List String
  | MdNode.image _ cs => collectLinkTargetsList cs
  | MdNode.link tgt cs => tgt :: collectLinkTargetsList cs
  | MdNode.other cs => collectLinkTargetsList cs

/-- `collectLinkTargets` over a children list. -/
def collectLinkTargetsList : List MdNode → List String
  | [] => []
  | n :: ns => collectLinkTargets n ++ collectLinkTargetsList ns

end

/-! ## Helper lemmas about the retry loop -/

theorem attemptBudget_pos (retries : Int) : 1 ≤ attemptBudget retries := by
  have h : (1 : Int) ≤ max 1 retries := le_max_left 1 retries
  unfold attemptBudget
  omega

theorem attemptBudget_default : attemptBudget defaultRetries = 3 := by decide

theorem attemptBudget_clamp (retries : Int) (h : retries < 1) :
    attemptBudget retries = 1 := by
  unfold attemptBudget
  rw [max_eq_left (le_of_lt h)]
  rfl

theorem requestGetLoop_count_le (att : Nat → AttemptOutcome) :
    ∀ (n i : Nat) (err : Option RetryableErr), (requestGetLoop att i n err).2 ≤ n := by
  intro n
  induction n with
  | zero => intro i err; simp [requestGetLoop]
  | succ m ih =>
    intro i err
    cases hatt : att i with
    | success r => simp [requestGetLoop, hatt]
    | retryable e =>
      have := ih (i + 1) (some e)
      simp only [requestGetLoop, hatt]
      omega
    | fatal e => simp [requestGetLoop, hatt]

theorem requestGetLoop_count_pos (att : Nat → AttemptOutcome) (n i : Nat)
    (err : Option RetryableErr) (hn : 1 ≤ n) :
    1 ≤ (requestGetLoop att i n err).2 := by
  cases n with
  | zero => omega
  | succ m =>
    cases hatt : att i with
    | success r => simp [requestGetLoop, hatt]
    | retryable e => simp only [requestGetLoop, hatt]; omega
    | fatal e => simp [requestGetLoop, hatt]

theorem requestGetLoop_ne_none (att : Nat → AttemptOutcome) :
    ∀ (n i : Nat) (err : Option RetryableErr), (err ≠ none ∨ 1 ≤ n) →
    (requestGetLoop att i n err).1 ≠ ReqOutcome.returnedNone := by
  intro n
  induction n with
  | zero =>
    intro i err h
    cases err with
    | none =>
      rcases h with h | h
      · exact absurd rfl h
      · omega
    | some e => simp [requestGetLoop]
  | succ m ih =>
    intro i err _
    cases hatt : att i with
    | success r => simp [requestGetLoop, hatt]
    | retryable e =>
      simp only [requestGetLoop, hatt]
      exact ih (i + 1) (some e) (Or.inl (by simp))
    | fatal e => simp [requestGetLoop, hatt]

theorem requestGetLoop_prefix_retryable (att : Nat → AttemptOutcome) :
    ∀ (n i : Nat) (err : Option RetryableErr) (j : Nat),
    j + 1 < (requestGetLoop att i n err).2 →
    ∃ e, att (i + j) = AttemptOutcome.retryable e := by
  intro n
  induction n with
  | zero => intro i err j h; simp [requestGetLoop] at h
  | succ m ih =>
    intro i err j h
    cases hatt : att i with
    | success r => simp [requestGetLoop, hatt] at h
    | fatal e => simp [requestGetLoop, hatt] at h
    | retryable e =>
      simp only [requestGetLoop, hatt] at h
      cases j with
      | zero => exact ⟨e, by simpa using hatt⟩
      | succ j =>
        obtain ⟨e2, he2⟩ := ih (i + 1) (some e) j (by omega)
        exact ⟨e2, by rw [show i + (j + 1) = i + 1 + j by omega]; exact he2⟩

theorem requestGetLoop_response_last (att : Nat → AttemptOutcome) :
    ∀ (n i : Nat) (err : Option RetryableErr) (r : Response),
    (requestGetLoop att i n err).1 = ReqOutcome.response r →
    att (i + ((requestGetLoop att i n err).2 - 1)) = AttemptOutcome.success r ∧
      1 ≤ (requestGetLoop att i n err).2 := by
  intro n
  induction n with
  | zero =>
    intro i err r h
    cases err <;> simp [requestGetLoop] at h
  | succ m ih =>
    intro i err r h
    cases hatt : att i with
    | success r2 =>
      simp only [requestGetLoop, hatt] at h ⊢
      cases h
      exact ⟨by simpa using hatt, by omega⟩
    | fatal e => simp [requestGetLoop, hatt] at h
    | retryable e =>
      simp only [requestGetLoop, hatt] at h ⊢
      obtain ⟨hlast, hpos⟩ := ih (i + 1) (some e) r h
      refine ⟨?_, by omega⟩
      rw [show i + ((requestGetLoop att (i + 1) m (some e)).2 + 1 - 1)
            = i + 1 + ((requestGetLoop att (i + 1) m (some e)).2 - 1) by omega]
      exact hlast

theorem requestGetLoop_other_last (att : Nat → AttemptOutcome) :
    ∀ (n i : Nat) (err : Option RetryableErr) (e : OtherError),
    (requestGetLoop att i n err).1 = ReqOutcome.raisedOther e →
    att (i + ((requestGetLoop att i n err).2 - 1)) = AttemptOutcome.fatal e ∧
      1 ≤ (requestGetLoop att i n err).2 := by
  intro n
  induction n with
  | zero =>
    intro i err e h
    cases err <;> simp [requestGetLoop] at h
  | succ m ih =>
    intro i err e h
    cases hatt : att i with
    | success r => simp [requestGetLoop, hatt] at h
    | fatal e2 =>
      simp only [requestGetLoop, hatt] at h ⊢
      cases h
      exact ⟨by simpa using hatt, by omega⟩
    | retryable e2 =>
      simp only [requestGetLoop, hatt] at h ⊢
      obtain ⟨hlast, hpos⟩ := ih (i + 1) (some e2) e h
      refine ⟨?_, by omega⟩
      rw [show i + ((requestGetLoop att (i + 1) m (some e2)).2 + 1 - 1)
            = i + 1 + ((requestGetLoop att (i + 1) m (some e2)).2 - 1) by omega]
      exact hlast

theorem requestGetLoop_retryable_last (att : Nat → AttemptOutcome) :
    ∀ (n i : Nat) (err : Option RetryableErr) (e : RetryableErr),
    (requestGetLoop att i n err).1 = ReqOutcome.raisedRetryable e →
    (requestGetLoop att i n err).2 = n ∧ (n = 0 → err = some e) ∧
      (1 ≤ n → att (i + (n - 1)) = AttemptOutcome.retryable e) := by
  intro n
  induction n with
  | zero =>
    intro i err e h
    cases err with
    | none => simp [requestGetLoop] at h
    | some e2 =>
      simp only [requestGetLoop] at h
      cases h
      exact ⟨rfl, fun _ => rfl, fun hc => absurd hc (by omega)⟩
  | succ m ih =>
    intro i err e h
    cases hatt : att i with
    | success r => simp [requestGetLoop, hatt] at h
    | fatal e2 => simp [requestGetLoop, hatt] at h
    | retryable e2 =>
      simp only [requestGetLoop, hatt] at h ⊢
      obtain ⟨hcount, hzero, hlast⟩ := ih (i + 1) (some e2) e h
      refine ⟨by omega, by omega, fun _ => ?_⟩
      cases m with
      | zero =>
        have he : e2 = e := by simpa using hzero rfl
        simpa [he] using hatt
      | succ m2 =>
        have := hlast (by omega)
        rw [show i + (m2 + 1 + 1 - 1) = i + 1 + (m2 + 1 - 1) by omega]
        exact this

/-! ## Claims C4 and C9: the retry loop of `request_get` -/

/-- C9: `request_get` is total in its result: for every `retries` value
(including zero and negative values) it performs at least one GET attempt
and either returns a response or raises an exception; the implicit
fall-through path that would return `None` is unreachable. -/
theorem request_get_total (retries : Int) (att : Nat → AttemptOutcome) :
    1 ≤ (request_get retries att).2 ∧
    ((∃ r, (request_get retries att).1 = ReqOutcome.response r) ∨
     (∃ e, (request_get retries att).1 = ReqOutcome.raisedRetryable e) ∨
     (∃ e, (request_get retries att).1 = ReqOutcome.raisedOther e)) := by
  constructor
  · exact requestGetLoop_count_pos att _ 0 none (attemptBudget_pos retries)
  · have h := requestGetLoop_ne_none att (attemptBudget retries) 0 none
      (Or.inr (attemptBudget_pos retries))
    cases ho : (request_get retries att).1 with
    | response r => exact Or.inl ⟨r, rfl⟩
    | raisedRetryable e => exact Or.inr (Or.inl ⟨e, rfl⟩)
    | raisedOther e => exact Or.inr (Or.inr ⟨e, rfl⟩)
    | returnedNone => exact absurd ho h

/-- C4: every `request_get` call makes at least 1 and at most
`max(1, retries)` GET attempts (the missing override defaults to 3, values
below 1 clamp to 1); every non-final attempt failed with a retryable
(connection / SSL) error, so only those trigger a further attempt; a fatal
exception is raised from the very attempt that produced it, consuming no
further attempts; and when every attempt fails with a retryable error the
loop runs the full budget and re-raises the last attempt's error value
itself, type and all. -/
theorem request_get_retry_policy (retries : Int) (att : Nat → AttemptOutcome) :
    (1 ≤ (request_get retries att).2 ∧
      (request_get retries att).2 ≤ attemptBudget retries) ∧
    attemptBudget defaultRetries = 3 ∧
    (retries < 1 → attemptBudget retries = 1) ∧
    (∀ j, j + 1 < (request_get retries att).2 →
      ∃ e, att j = AttemptOutcome.retryable e) ∧
    (∀ r, (request_get retries att).1 = ReqOutcome.response r →
      att ((request_get retries att).2 - 1) = AttemptOutcome.success r) ∧
    (∀ e, (request_get retries att).1 = ReqOutcome.raisedOther e →
      att ((request_get retries att).2 - 1) = AttemptOutcome.fatal e) ∧
    (∀ e, (request_get retries att).1 = ReqOutcome.raisedRetryable e →
      (request_get retries att).2 = attemptBudget retries ∧
      att (attemptBudget retries - 1) = AttemptOutcome.retryable e) := by
  refine ⟨⟨requestGetLoop_count_pos att _ 0 none (attemptBudget_pos retries),
    requestGetLoop_count_le att _ 0 none⟩, attemptBudget_default,
    attemptBudget_clamp retries, ?_, ?_, ?_, ?_⟩
  · intro j hj
    simpa using requestGetLoop_prefix_retryable att (attemptBudget retries) 0 none j hj
  · intro r hr
    simpa using (requestGetLoop_response_last att (attemptBudget retries) 0 none r hr).1
  · intro e he
    simpa using (requestGetLoop_other_last att (attemptBudget retries) 0 none e he).1
  · intro e he
    obtain ⟨hc, _, hl⟩ := requestGetLoop_retryable_last att (attemptBudget retries) 0 none e he
    exact ⟨hc, by simpa using hl (attemptBudget_pos retries)⟩

/-- Concrete response used by the C4 witness run. -/
def respC4 : Response :=
  ⟨200, some "etag-value", some "55", some "60", "body", some ⟨"json-value"⟩⟩

/-- Concrete attempt oracle for the C4 witness: an SSL error on the first
attempt, then success. -/
def attC4 : Nat → AttemptOutcome := fun j =>
  if j = 0 then AttemptOutcome.retryable (RetryableErr.sslError 7)
  else AttemptOutcome.success respC4

/-- Witness for C4 at a concrete run: with `retries = 3` and an oracle that
fails retryably once then succeeds, the call makes 2 attempts, the first
attempt's failure is retryable, and the final attempt is the success. -/
theorem request_get_retry_policy_witness :
    (0 + 1 < (request_get 3 attC4).2 ∧
      ∃ e, attC4 0 = AttemptOutcome.retryable e) ∧
    attC4 ((request_get 3 attC4).2 - 1) = AttemptOutcome.success respC4 := by
  have h := request_get_retry_policy 3 attC4
  have h1 : 0 + 1 < (request_get 3 attC4).2 := by decide
  have h2 : (request_get 3 attC4).1 = ReqOutcome.response respC4 := by decide
  exact ⟨⟨h1, h.2.2.2.1 0 h1⟩, h.2.2.2.2.1 respC4 h2⟩

/-! ## Helper lemmas about `request_github_api` -/

theorem request_get_const_success (retries : Int) (r : Response) :
    request_get retries (fun _ => AttemptOutcome.success r) = (ReqOutcome.response r, 1) := by
  have h := attemptBudget_pos retries
  unfold request_get
  rcases hn : attemptBudget retries with _ | m
  · omega
  · simp [requestGetLoop]

theorem request_github_api_of_response (url params etag : String) (token : Option String)
    (retries : Int) (att : Nat → AttemptOutcome) (r : Response) (k : Nat)
    (h : request_get retries att = (ReqOutcome.response r, k)) :
    request_github_api url params etag token retries att =
      ⟨buildHeaders etag token, GhResult.api (interpretResponse url params r).1,
        (interpretResponse url params r).2, k⟩ := by
  simp [request_github_api, h]

theorem request_github_api_sentHeaders (url params etag : String) (token : Option String)
    (retries : Int) (att : Nat → AttemptOutcome) :
    (request_github_api url params etag token retries att).sentHeaders =
      buildHeaders etag token := by
  rcases h : request_get retries att with ⟨o, k⟩
  cases o <;> simp [request_github_api, h]

theorem request_github_api_attempts (url params etag : String) (token : Option String)
    (retries : Int) (att : Nat → AttemptOutcome) :
    (request_github_api url params etag token retries att).attempts =
      (request_get retries att).2 := by
  rcases h : request_get retries att with ⟨o, k⟩
  cases o <;> simp [request_github_api, h]

/-! ## Claims C8 and C10: mandatory headers -/

/-- C8: for every response that lacks an `ETag` header the call fails with
the re-raised `KeyError`, regardless of the response's status code, after
logging the full request/response context (url, params, status code, body);
the transport's attempt count is unchanged, so the failure is never
retried. -/
theorem missing_etag_always_fails (url params etag : String) (token : Option String)
    (retries : Int) (att : Nat → AttemptOutcome) (r : Response) (k : Nat)
    (he : r.etagHeader = none)
    (hresp : request_get retries att = (ReqOutcome.response r, k)) :
    (request_github_api url params etag token retries att).result =
      GhResult.api GhOutcome.errNoEtag ∧
    (request_github_api url params etag token retries att).events =
      [Event.logError url params r.status_code r.content] ∧
    (request_github_api url params etag token retries att).attempts = k := by
  rw [request_github_api_of_response url params etag token retries att r k hresp]
  simp [interpretResponse, he]

/-- Witness for C8: a status-200 response with both rate-limit headers but no
`ETag` fails with the `KeyError` after logging url, params, status and body,
in exactly one attempt. -/
theorem missing_etag_always_fails_witness :
    (request_github_api "https://api.github.test/x" "per_page=100" "" none 3
        (fun _ => AttemptOutcome.success
          ⟨200, none, some "55", some "60", "raw-body", some ⟨"json-value"⟩⟩)).result =
      GhResult.api GhOutcome.errNoEtag ∧
    (request_github_api "https://api.github.test/x" "per_page=100" "" none 3
        (fun _ => AttemptOutcome.success
          ⟨200, none, some "55", some "60", "raw-body", some ⟨"json-value"⟩⟩)).events =
      [Event.logError "https://api.github.test/x" "per_page=100" 200 "raw-body"] ∧
    (request_github_api "https://api.github.test/x" "per_page=100" "" none 3
        (fun _ => AttemptOutcome.success
          ⟨200, none, some "55", some "60", "raw-body", some ⟨"json-value"⟩⟩)).attempts = 1 :=
  missing_etag_always_fails "https://api.github.test/x" "per_page=100" "" none 3 _
    ⟨200, none, some "55", some "60", "raw-body", some ⟨"json-value"⟩⟩ 1 rfl
    (request_get_const_success 3 _)

/-- C10: for every response that carries an `ETag` header but lacks the
`X-RateLimit-Remaining` or `X-RateLimit-Limit` header, the call fails with a
`KeyError` before any status-code interpretation — even when the status is
200 or 304 — and before any rate-limit report, error log or JSON parse
(the event list is empty). -/
theorem missing_rate_limit_header_raises (url params etag : String) (token : Option String)
    (retries : Int) (att : Nat → AttemptOutcome) (r : Response) (e : String) (k : Nat)
    (he : r.etagHeader = some e)
    (hm : r.rateRemainingHeader = none ∨ r.rateLimitHeader = none)
    (hresp : request_get retries att = (ReqOutcome.response r, k)) :
    (request_github_api url params etag token retries att).result =
      GhResult.api GhOutcome.errRateLimitKey ∧
    (request_github_api url params etag token retries att).events = [] := by
  rw [request_github_api_of_response url params etag token retries att r k hresp]
  rcases hm with hm | hm
  · simp [interpretResponse, he, hm]
  · cases hrem : r.rateRemainingHeader <;> simp [interpretResponse, he, hm, hrem]

/-- Witness for C10: a status-304 response with an `ETag` but no
`X-RateLimit-Remaining` header fails with the `KeyError` and emits no
events. -/
theorem missing_rate_limit_header_raises_witness :
    (request_github_api "u" "p" "old-etag" none 3
        (fun _ => AttemptOutcome.success
          ⟨304, some "new-etag", none, some "60", "raw-body", none⟩)).result =
      GhResult.api GhOutcome.errRateLimitKey ∧
    (request_github_api "u" "p" "old-etag" none 3
        (fun _ => AttemptOutcome.success
          ⟨304, some "new-etag", none, some "60", "raw-body", none⟩)).events = [] :=
  missing_rate_limit_header_raises "u" "p" "old-etag" none 3 _
    ⟨304, some "new-etag", none, some "60", "raw-body", none⟩ "new-etag" 1 rfl
    (Or.inl rfl) (request_get_const_success 3 _)

/-! ## Claim C1: status-code interpretation -/

/-- Counterexample to C1 as stated: a response that carries an `ETag` header
(`"abc"`, status 304) but lacks the `X-RateLimit-Remaining` header does not
return `Unchanged`; the call fails with a `KeyError` instead.  C1's
quantification over every response carrying an ETag header is therefore too
broad. -/
theorem status_interpretation_cex :
    (request_github_api "u" "p" "" none 3
        (fun _ => AttemptOutcome.success
          ⟨304, some "abc", none, some "60", "raw-body", none⟩)).result =
      GhResult.api GhOutcome.errRateLimitKey ∧
    (request_github_api "u" "p" "" none 3
        (fun _ => AttemptOutcome.success
          ⟨304, some "abc", none, some "60", "raw-body", none⟩)).result ≠
      GhResult.api (GhOutcome.unchanged "abc") := by decide

/-- C1 (amended): for every response carrying an `ETag` header and both
rate-limit headers: status 304 returns `Unchanged(newEtag)` without ever
parsing the body as JSON; status 200 parses the body as JSON and, when the
parse succeeds, returns `Updated(json, newEtag)`; any other status fails
carrying the status code and the raw body.  A failure at this stage is never
retried: a call whose transport succeeds on its first attempt performs
exactly one GET no matter how the response is then interpreted. -/
theorem status_interpretation (url params : String) (r : Response) (e a b : String)
    (he : r.etagHeader = some e)
    (ha : r.rateRemainingHeader = some a)
    (hb : r.rateLimitHeader = some b) :
    (r.status_code = 304 →
      (interpretResponse url params r).1 = GhOutcome.unchanged (normalizeEtag e) ∧
      Event.parseJsonBody ∉ (interpretResponse url params r).2) ∧
    (r.status_code = 200 →
      Event.parseJsonBody ∈ (interpretResponse url params r).2 ∧
      ∀ j, r.jsonBody = some j →
        (interpretResponse url params r).1 = GhOutcome.updated j (normalizeEtag e)) ∧
    (r.status_code ≠ 304 → r.status_code ≠ 200 →
      (interpretResponse url params r).1 = GhOutcome.errStatus r.status_code r.content) ∧
    (∀ etag token retries,
      (request_github_api url params etag token retries
        (fun _ => AttemptOutcome.success r)).result =
          GhResult.api (interpretResponse url params r).1 ∧
      (request_github_api url params etag token retries
        (fun _ => AttemptOutcome.success r)).attempts = 1) := by
  refine ⟨?_, ?_, ?_, ?_⟩
  · intro h304
    constructor
    · simp [interpretResponse, he, ha, hb, h304]
    · simp [interpretResponse, he, ha, hb, h304]
  · intro h200
    have h304 : r.status_code ≠ 304 := by omega
    constructor
    · cases hj : r.jsonBody <;> simp [interpretResponse, he, ha, hb, h200, h304, hj]
    · intro j hj
      simp [interpretResponse, he, ha, hb, h200, h304, hj]
  · intro h304 h200
    simp [interpretResponse, he, ha, hb, h304, h200]
  · intro etag token retries
    rw [request_github_api_of_response url params etag token retries _ r 1
      (request_get_const_success retries r)]
    exact ⟨rfl, rfl⟩

/-- Witness for C1 (amended) at a concrete run: a 304 response with ETag
`"abc"` and both rate-limit headers yields `Unchanged "abc"` with no JSON
parse event, and the unexpected-status clause at a 403 response yields the
error carrying 403 and the body. -/
theorem status_interpretation_witness :
    ((interpretResponse "u" "p" ⟨304, some "abc", some "55", some "60", "rb", none⟩).1 =
        GhOutcome.unchanged (normalizeEtag "abc") ∧
      Event.parseJsonBody ∉
        (interpretResponse "u" "p" ⟨304, some "abc", some "55", some "60", "rb", none⟩).2) ∧
    (interpretResponse "u" "p" ⟨403, some "abc", some "55", some "60", "limited", none⟩).1 =
      GhOutcome.errStatus 403 "limited" :=
  ⟨(status_interpretation "u" "p" ⟨304, some "abc", some "55", some "60", "rb", none⟩
      "abc" "55" "60" rfl rfl rfl).1 rfl,
    (status_interpretation "u" "p" ⟨403, some "abc", some "55", some "60", "limited", none⟩
      "abc" "55" "60" rfl rfl rfl).2.2.1 (by decide) (by decide)⟩

/-! ## Claim C2: ETag normalization -/

/-- Counterexample to C2 as stated: the caller-supplied input etag `"W/abc"`
is placed in the `If-None-Match` request header with its weak-validator
marker intact — it is used without the two-character prefix being
stripped. -/
theorem etag_input_not_stripped_cex :
    (request_github_api "u" "p" "W/abc" none 3
        (fun _ => AttemptOutcome.success
          ⟨304, some "W/xyz", some "55", some "60", "rb", none⟩)).sentHeaders =
      [("If-None-Match", "W/abc")] ∧
    ("W/abc" : String) ≠ "abc" := by decide

/-- C2 (amended): only the ETag taken from the response is normalized — when
it begins with `W/` the returned etag is the response ETag with that
two-character prefix stripped, and otherwise it is the response ETag
verbatim — while the caller-supplied input etag is sent unchanged (marker
and all) as the `If-None-Match` header value. -/
theorem etag_normalization (url params etag : String) (token : Option String)
    (retries : Int) (att : Nat → AttemptOutcome) (r : Response) (e : String)
    (he : r.etagHeader = some e) :
    (request_github_api url params etag token retries att).sentHeaders.head? =
      some ("If-None-Match", etag) ∧
    (∀ s, (interpretResponse url params r).1 = GhOutcome.unchanged s →
      s = normalizeEtag e) ∧
    (∀ j s, (interpretResponse url params r).1 = GhOutcome.updated j s →
      s = normalizeEtag e) ∧
    (pyStartsWith e "W/" = true → normalizeEtag e = pyDrop e 2) ∧
    (pyStartsWith e "W/" = false → normalizeEtag e = e) := by
  refine ⟨?_, ?_, ?_, ?_, ?_⟩
  · rw [request_github_api_sentHeaders]
    rfl
  · intro s hs
    cases hrem : r.rateRemainingHeader with
    | none => simp [interpretResponse, he, hrem] at hs
    | some a =>
      cases hlim : r.rateLimitHeader with
      | none => simp [interpretResponse, he, hrem, hlim] at hs
      | some b =>
        by_cases h304 : r.status_code = 304
        · simp [interpretResponse, he, hrem, hlim, h304] at hs
          exact hs.symm
        · by_cases h200 : r.status_code = 200
          · cases hj : r.jsonBody <;>
              simp [interpretResponse, he, hrem, hlim, h304, h200, hj] at hs
          · simp [interpretResponse, he, hrem, hlim, h304, h200] at hs
  · intro j s hs
    cases hrem : r.rateRemainingHeader with
    | none => simp [interpretResponse, he, hrem] at hs
    | some a =>
      cases hlim : r.rateLimitHeader with
      | none => simp [interpretResponse, he, hrem, hlim] at hs
      | some b =>
        by_cases h304 : r.status_code = 304
        · simp [interpretResponse, he, hrem, hlim, h304] at hs
        · by_cases h200 : r.status_code = 200
          · cases hj : r.jsonBody with
            | none => simp [interpretResponse, he, hrem, hlim, h304, h200, hj] at hs
            | some j2 =>
              simp [interpretResponse, he, hrem, hlim, h304, h200, hj] at hs
              exact hs.2.symm
          · simp [interpretResponse, he, hrem, hlim, h304, h200] at hs
  · intro hw; simp [normalizeEtag, hw]
  · intro hw; simp [normalizeEtag, hw]

/-- Witness for C2 (amended) at a concrete run: with input etag `"W/abc"`
and response ETag `"W/xyz"`, the `If-None-Match` header carries `"W/abc"`
unchanged while the normalized new etag is `"xyz"`. -/
theorem etag_normalization_witness :
    (request_github_api "u" "p" "W/abc" none 3
        (fun _ => AttemptOutcome.success
          ⟨304, some "W/xyz", some "55", some "60", "rb", none⟩)).sentHeaders.head? =
      some ("If-None-Match", "W/abc") ∧
    normalizeEtag "W/xyz" = pyDrop "W/xyz" 2 := by
  have h := etag_normalization "u" "p" "W/abc" none 3
    (fun _ => AttemptOutcome.success ⟨304, some "W/xyz", some "55", some "60", "rb", none⟩)
    ⟨304, some "W/xyz", some "55", some "60", "rb", none⟩ "W/xyz" rfl
  exact ⟨h.1, h.2.2.2.1 (by decide)⟩

/-! ## Claim C3: rate-limit reporting -/

/-- Counterexample to C3 as stated: a fetch that receives a response lacking
the `ETag` header — even one whose rate-limit headers are present — reports
nothing to the rate-limit sink: its whole event trace is the error log, so
no `recordRateLimit` event occurs.  Reporting is therefore not performed on
every received response regardless of outcome. -/
theorem rate_limit_report_cex :
    (request_github_api "u" "p" "" none 3
        (fun _ => AttemptOutcome.success
          ⟨200, none, some "55", some "60", "raw-body", some ⟨"json-value"⟩⟩)).events =
      [Event.logError "u" "p" 200 "raw-body"] ∧
    Event.recordRateLimit "55" "60" ∉
      (request_github_api "u" "p" "" none 3
        (fun _ => AttemptOutcome.success
          ⟨200, none, some "55", some "60", "raw-body", some ⟨"json-value"⟩⟩)).events := by
  decide

/-- C3 (amended): on every fetch call that receives an HTTP response
carrying the `ETag` header and both rate-limit headers, the remaining and
limit header values are reported to the rate-limit sink regardless of the
subsequent outcome — on status 304 and 200 as well as on an unexpected
status or a JSON parse failure.  When the response lacks the `ETag` header
the call fails before reporting. -/
theorem rate_limit_report (url params etag : String) (token : Option String)
    (retries : Int) (att : Nat → AttemptOutcome) (r : Response) (e a b : String) (k : Nat)
    (he : r.etagHeader = some e)
    (ha : r.rateRemainingHeader = some a)
    (hb : r.rateLimitHeader = some b)
    (hresp : request_get retries att = (ReqOutcome.response r, k)) :
    Event.recordRateLimit a b ∈
      (request_github_api url params etag token retries att).events ∧
    (∀ r2 : Response, r2.etagHeader = none →
      (interpretResponse url params r2).2 = [Event.logError url params r2.status_code r2.content]) := by
  constructor
  · rw [request_github_api_of_response url params etag token retries att r k hresp]
    show Event.recordRateLimit a b ∈ (interpretResponse url params r).2
    by_cases h304 : r.status_code = 304
    · simp [interpretResponse, he, ha, hb, h304]
    · by_cases h200 : r.status_code = 200
      · cases hj : r.jsonBody <;> simp [interpretResponse, he, ha, hb, h304, h200, hj]
      · simp [interpretResponse, he, ha, hb, h304, h200]
  · intro r2 he2
    simp [interpretResponse, he2]

/-- Witness for C3 (amended) at a concrete run: a 403 response (an outcome
that subsequently fails) with ETag and rate-limit headers still gets its
`(remaining, limit)` pair reported. -/
theorem rate_limit_report_witness :
    Event.recordRateLimit "0" "60" ∈
      (request_github_api "u" "p" "" none 3
        (fun _ => AttemptOutcome.success
          ⟨403, some "abc", some "0", some "60", "limited", none⟩)).events :=
  (rate_limit_report "u" "p" "" none 3 _
    ⟨403, some "abc", some "0", some "60", "limited", none⟩ "abc" "0" "60" 1
    rfl rfl rfl (request_get_const_success 3 _)).1

/-! ## Helper lemmas about URL classification and the tree rewrite -/

theorem matchesSchemeAux_append (m : List Char) :
    ∀ l : List Char, matchesSchemeAux l = true → matchesSchemeAux (l ++ m) = true := by
  intro l
  induction l with
  | nil => intro h; simp [matchesSchemeAux] at h
  | cons c rest ih =>
    intro h
    by_cases hc : c = ':'
    · subst hc
      simp only [matchesSchemeAux, if_pos rfl, decide_eq_true_eq] at h ⊢
      cases rest with
      | nil => simp [List.take] at h
      | cons a rest2 =>
        cases rest2 with
        | nil => simp [List.take] at h
        | cons b rest3 =>
          simp [List.take] at h ⊢
          exact h
    · simp only [matchesSchemeAux, if_neg hc, Bool.and_eq_true] at h ⊢
      exact ⟨h.1, ih h.2⟩

theorem matchesSchemeL_append (l m : List Char) (h : matchesSchemeL l = true) :
    matchesSchemeL (l ++ m) = true := by
  cases l with
  | nil => simp [matchesSchemeL] at h
  | cons c rest =>
    simp only [matchesSchemeL, Bool.and_eq_true] at h
    simp only [List.cons_append, matchesSchemeL, Bool.and_eq_true]
    exact ⟨h.1, matchesSchemeAux_append m rest h.2⟩

theorem matchesScheme_append (b t : String) (h : matchesScheme b = true) :
    matchesScheme (b ++ t) = true := by
  unfold matchesScheme at h ⊢
  rw [String.data_append]
  exact matchesSchemeL_append b.data t.data h

theorem rewrite_url_of_scheme (url base : String) (h : matchesScheme url = true) :
    rewrite_url url base = url := by
  simp [rewrite_url, h]

theorem rewrite_url_of_trivial (url base : String)
    (h : url = "" ∨ url = "." ∨ pyStartsWith url "#" = true) :
    rewrite_url url base = url := by
  by_cases hs : matchesScheme url <;> simp [rewrite_url, hs, h]

theorem rewrite_url_of_relative (url base : String) (hs : matchesScheme url = false)
    (h : ¬(url = "" ∨ url = "." ∨ pyStartsWith url "#" = true)) :
    rewrite_url url base = base ++ "/" ++ url := by
  simp [rewrite_url, hs, h]

theorem rewrite_url_idem (url base : String) (hb : matchesScheme base = true) :
    rewrite_url (rewrite_url url base) base = rewrite_url url base := by
  by_cases hs : matchesScheme url
  · rw [rewrite_url_of_scheme url base hs, rewrite_url_of_scheme url base hs]
  · by_cases ht : url = "" ∨ url = "." ∨ pyStartsWith url "#" = true
    · rw [rewrite_url_of_trivial url base ht, rewrite_url_of_trivial url base ht]
    · rw [rewrite_url_of_relative url base (by simpa using hs) ht]
      exact rewrite_url_of_scheme _ base
        (matchesScheme_append (base ++ "/") url (matchesScheme_append base "/" hb))

mutual

theorem rewriteNode_eq_map (reposUrl rawUrl : String) :
    ∀ n : MdNode,
    rewriteNode reposUrl rawUrl n =
      mapUrlsNode (fun u => rewrite_url u rawUrl) (fun u => rewrite_url u reposUrl) n
  | MdNode.image src cs => by
    simp only [rewriteNode, mapUrlsNode]
    rw [rewriteNodes_eq_map reposUrl rawUrl cs]
  | MdNode.link tgt cs => by
    simp only [rewriteNode, mapUrlsNode]
    rw [rewriteNodes_eq_map reposUrl rawUrl cs]
  | MdNode.other cs => by
    simp only [rewriteNode, mapUrlsNode]
    rw [rewriteNodes_eq_map reposUrl rawUrl cs]

theorem rewriteNodes_eq_map (reposUrl rawUrl : String) :
    ∀ ns : List MdNode,
    rewriteNodes reposUrl rawUrl ns =
      mapUrlsNodes (fun u => rewrite_url u rawUrl) (fun u => rewrite_url u reposUrl) ns
  | [] => rfl
  | n :: ns => by
    simp only [rewriteNodes, mapUrlsNodes]
    rw [rewriteNode_eq_map reposUrl rawUrl n, rewriteNodes_eq_map reposUrl rawUrl ns]

end

mutual

theorem rewriteNode_idem (reposUrl rawUrl : String)
    (hR : matchesScheme reposUrl = true) (hW : matchesScheme rawUrl = true) :
    ∀ n : MdNode,
    rewriteNode reposUrl rawUrl (rewriteNode reposUrl rawUrl n) =
      rewriteNode reposUrl rawUrl n
  | MdNode.image src cs => by
    simp only [rewriteNode]
    rw [rewrite_url_idem src rawUrl hW, rewriteNodes_idem reposUrl rawUrl hR hW cs]
  | MdNode.link tgt cs => by
    simp only [rewriteNode]
    rw [rewrite_url_idem tgt reposUrl hR, rewriteNodes_idem reposUrl rawUrl hR hW cs]
  | MdNode.other cs => by
    simp only [rewriteNode]
    rw [rewriteNodes_idem reposUrl rawUrl hR hW cs]

theorem rewriteNodes_idem (reposUrl rawUrl : String)
    (hR : matchesScheme reposUrl = true) (hW : matchesScheme rawUrl = true) :
    ∀ ns : List MdNode,
    rewriteNodes reposUrl rawUrl (rewriteNodes reposUrl rawUrl ns) =
      rewriteNodes reposUrl rawUrl ns
  | [] => rfl
  | n :: ns => by
    simp only [rewriteNodes]
    rw [rewriteNode_idem reposUrl rawUrl hR hW n, rewriteNodes_idem reposUrl rawUrl hR hW ns]

end

/-! ## Claim C5: the URL rewrite rule -/

/-- C5: for every image node and every link node of the parsed document,
`rewrite_markdown` rewrites exactly the node's URL: a URL matching `^\w+://`
is left unchanged; a URL equal to `''` or `'.'` or starting with `#` is left
unchanged; any other URL `p` becomes `base + '/' + p`, where `base` is the
raw base URL with trailing slashes stripped for images and the repos base
URL with trailing slashes stripped for links. -/
theorem rewrite_markdown_url_rule (reposUrl rawUrl : String) (doc : MdNode) :
    rewriteDoc reposUrl rawUrl doc =
      mapUrlsNode (fun u => rewrite_url u (rstripSlash rawUrl))
        (fun u => rewrite_url u (rstripSlash reposUrl)) doc ∧
    (∀ u b, matchesScheme u = true → rewrite_url u b = u) ∧
    (∀ u b, u = "" ∨ u = "." ∨ pyStartsWith u "#" = true → rewrite_url u b = u) ∧
    (∀ u b, matchesScheme u = false →
      ¬(u = "" ∨ u = "." ∨ pyStartsWith u "#" = true) →
      rewrite_url u b = b ++ "/" ++ u) :=
  ⟨rewriteNode_eq_map (rstripSlash reposUrl) (rstripSlash rawUrl) doc,
    rewrite_url_of_scheme, rewrite_url_of_trivial,
    fun u b hs h => rewrite_url_of_relative u b hs h⟩

/-- Witness for C5 at concrete inputs: a relative image source is rewritten
against the slash-stripped raw base, a scheme-qualified URL and a fragment
URL are untouched, and a one-image document is mapped accordingly. -/
theorem rewrite_markdown_url_rule_witness :
    rewrite_url "1.png" "https://e.com/raw" = "https://e.com/raw" ++ "/" ++ "1.png" ∧
    rewrite_url "https://x.y/z" "b" = "https://x.y/z" ∧
    rewrite_url "#frag" "b" = "#frag" ∧
    rewriteDoc "https://e.com/repos" "https://e.com/raw/" (MdNode.image "1.png" []) =
      mapUrlsNode (fun u => rewrite_url u (rstripSlash "https://e.com/raw/"))
        (fun u => rewrite_url u (rstripSlash "https://e.com/repos"))
        (MdNode.image "1.png" []) := by
  have h := rewrite_markdown_url_rule "https://e.com/repos" "https://e.com/raw/"
    (MdNode.image "1.png" [])
  exact ⟨h.2.2.2 "1.png" "https://e.com/raw" (by decide) (by decide),
    h.2.1 "https://x.y/z" "b" (by decide),
    h.2.2.1 "#frag" "b" (Or.inr (Or.inr (by decide))), h.1⟩

/-! ## Claim C7: idempotence of the rewrite -/

/-- Counterexample to C7 as stated: the claim quantifies over every pair of
base URLs, and idempotence fails for base URLs that are not themselves
scheme-qualified.  With both base URLs `"b"`, the document `[x](p)` holds
one link with target `"p"`; the first rewrite turns the target into
`"b/p"` (conjunct 1, `rewrite_url` at work).  Because `"b/p"` still fails
`^\w+://` — the word char `b` is followed by `/`, not `://` — and is not
empty, `"."` or a fragment, a second application of `rewrite_url`
classifies it as a relative path again and produces `"b/b/p"` (conjuncts
2-3).  At tree level: rewriting the one-link document once yields link
target `"b/p"`, rewriting that result again yields `"b/b/p"`, so the twice-
rewritten tree differs from the once-rewritten tree (conjuncts 4-6).  The
second rewrite of the claim operates on the re-parsed rendered output, and
the only field the traversal rewrites in this document is exactly this link
target. -/
theorem rewrite_markdown_not_idem_cex :
    rewrite_url "p" (rstripSlash "b") = "b/p" ∧
    matchesScheme "b/p" = false ∧
    rewrite_url "b/p" (rstripSlash "b") = "b/b/p" ∧
    collectLinkTargets (rewriteDoc "b" "b" (MdNode.link "p" [])) = ["b/p"] ∧
    collectLinkTargets (rewriteDoc "b" "b" (rewriteDoc "b" "b" (MdNode.link "p" []))) =
      ["b/b/p"] ∧
    rewriteDoc "b" "b" (rewriteDoc "b" "b" (MdNode.link "p" [])) ≠
      rewriteDoc "b" "b" (MdNode.link "p" []) := by
  refine ⟨by decide, by decide, by decide, by decide, by decide, fun h => ?_⟩
  have h2 := congrArg collectLinkTargets h
  have h3 : (["b/b/p"] : List String) = ["b/p"] := by
    calc (["b/b/p"] : List String)
        = collectLinkTargets (rewriteDoc "b" "b" (rewriteDoc "b" "b" (MdNode.link "p" []))) := by
          decide
      _ = collectLinkTargets (rewriteDoc "b" "b" (MdNode.link "p" [])) := h2
      _ = ["b/p"] := by decide
  exact absurd h3 (by decide)

/-- C7 (amended): rewriting is idempotent whenever the two slash-stripped
base URLs are themselves scheme-qualified (match `^\w+://`), as they are
for the http(s) bases this code is called with: then every URL produced by
the first pass is either untouched (scheme-qualified, empty, `"."` or a
fragment, all of which rewrite to themselves) or of the form
`base + "/" + p`, which is scheme-qualified because its `^\w+://` prefix is
that of `base`, so the second traversal of the document tree changes no
node. -/
theorem rewrite_markdown_idem (reposUrl rawUrl : String) (doc : MdNode)
    (hR : matchesScheme (rstripSlash reposUrl) = true)
    (hW : matchesScheme (rstripSlash rawUrl) = true) :
    rewriteDoc reposUrl rawUrl (rewriteDoc reposUrl rawUrl doc) =
      rewriteDoc reposUrl rawUrl doc :=
  rewriteNode_idem (rstripSlash reposUrl) (rstripSlash rawUrl) hR hW doc

/-- Witness for C7 (amended) at concrete inputs: with the two https bases of
the spec's example, re-rewriting a two-node document changes nothing. -/
theorem rewrite_markdown_idem_witness :
    rewriteDoc "https://example.com/repos" "https://example.com/raw"
        (rewriteDoc "https://example.com/repos" "https://example.com/raw"
          (MdNode.other [MdNode.link "2.md" [], MdNode.image "1.png" []])) =
      rewriteDoc "https://example.com/repos" "https://example.com/raw"
        (MdNode.other [MdNode.link "2.md" [], MdNode.image "1.png" []]) :=
  rewrite_markdown_idem "https://example.com/repos" "https://example.com/raw"
    (MdNode.other [MdNode.link "2.md" [], MdNode.image "1.png" []])
    (by decide) (by decide)

end PluginCatalogue
